import Mathlib

/-!
A shallow embedding of the SpringRoll `Application` class
(src/unnamed/part_002) and the parts of its collaborators that its
behaviour depends on, together with theorems checking the specification's
claims about it.
-/

namespace SpringRoll

/-! ### Volume properties and the legacy mute handlers

Modelled from the spec: the Property class itself (src/state/Property.js) is
not among the given sources; per the spec it is an observable value cell
holding a current value, the previous value used by the legacy mute/restore
handlers, and listener callbacks. Listener notification never changes the
stored value, so only the stored fields are modelled. Volumes are modelled
as rationals. The handler body itself is translated from
src/unnamed/part_002 lines 100-107.
-/

structure VolumeProp where
  value : ℚ
  previousValue : Option ℚ := none
deriving DecidableEq, Repr

/-- JavaScript `property._previousValue || 1`: an absent (`undefined`) or
zero previous value is replaced by 1 (0 is falsy in JavaScript). -/
def legacyOrOne : Option ℚ → ℚ
  | none => 1
  | some x => if x = 0 then 1 else x

/-- The handler the Application constructor attaches for each legacy mute
event (`soundMuted`, `musicMuted`, `voMuted`, `sfxMuted`):
`const previousValue = property._previousValue || 1;
 property._previousValue = property.value;
 property.value = containerEvent.data ? 0 : previousValue;` -/
def legacyMuteHandler (data : Bool) (p : VolumeProp) : VolumeProp :=
  let previousValue := legacyOrOne p.previousValue
  { previousValue := some p.value
    value := if data then 0 else previousValue }

/-- The four legacy mute events and the volume property each one drives,
in the order the constructor registers them. -/
def legacyListeners : List (String × String) :=
  [("soundMuted", "soundVolume"), ("musicMuted", "musicVolume"),
   ("voMuted", "voVolume"), ("sfxMuted", "sfxVolume")]

/-! ### Feature flags -/

/-- The `config.features` object a caller may pass to the constructor:
each flag may be absent (`none`) or explicitly set. -/
structure FeaturesInput where
  captions : Option Bool := none
  sound : Option Bool := none
  vo : Option Bool := none
  music : Option Bool := none
  sfx : Option Bool := none
  soundVolume : Option Bool := none
  musicVolume : Option Bool := none
  voVolume : Option Bool := none
  sfxVolume : Option Bool := none
deriving DecidableEq, Repr

/-- The effective feature set stored on the Application. -/
structure Features where
  captions : Bool := false
  sound : Bool := false
  vo : Bool := false
  music : Bool := false
  sfx : Bool := false
  soundVolume : Bool := false
  musicVolume : Bool := false
  voVolume : Bool := false
  sfxVolume : Bool := false
deriving DecidableEq, Repr

/-- `Object.assign({captions: false, ...}, features || {})`: every flag
present in the input overrides the all-false default. -/
def assignFeatures (inp : FeaturesInput) : Features :=
  { captions := inp.captions.getD false
    sound := inp.sound.getD false
    vo := inp.vo.getD false
    music := inp.music.getD false
    sfx := inp.sfx.getD false
    soundVolume := inp.soundVolume.getD false
    musicVolume := inp.musicVolume.getD false
    voVolume := inp.voVolume.getD false
    sfxVolume := inp.sfxVolume.getD false }

/-- The constructor's feature derivation, src/unnamed/part_002 lines 45-63:
assign over defaults, then
`if (this.features.vo || this.features.music || this.features.sfx)
   this.features.sound = true;` -/
def mkFeatures (inp : FeaturesInput) : Features :=
  let f := assignFeatures inp
  if f.vo || f.music || f.sfx then { f with sound := true } else f

/-- The constructor may be called with no `features` key at all
(`features || {}`). -/
def constructFeatures (features : Option FeaturesInput) : Features :=
  mkFeatures (features.getD {})

/-! ### Plugin descriptors and the lifecycle runner -/

deriving instance DecidableEq for Except

/-- A plugin descriptor as the runner sees it: an optional preload hook
(modelled, when present, by the settled outcome of the promise it returns),
optional init and start hooks (their presence; the hooks themselves only
produce trace events here), and the mutable `preloadFailed` flag. -/
structure PluginDesc where
  name : String
  preload : Option (Except String Unit) := none
  init : Bool := false
  start : Bool := false
  preloadFailed : Bool := false
deriving DecidableEq, Repr

/-- `Application.uses(plugin)` appends the descriptor to the static
registry list. -/
def uses (plugins : List PluginDesc) (plugin : PluginDesc) : List PluginDesc :=
  plugins ++ [plugin]

/-- `Application.getPlugin(name)`: `Application._plugins.find(p => p.name === name)`. -/
def getPlugin (plugins : List PluginDesc) (name : String) : Option PluginDesc :=
  plugins.find? (fun plugin => plugin.name == name)

/-- Observable events of a `setupPlugins` run. -/
inductive Event where
  | preloadResolved (name : String)
  | preloadRejected (name : String)
  | initRun (name : String)
  | startRun (name : String)
deriving DecidableEq, Repr

/-- One preload promise with its attached `.catch(preloadFail)` handler:
a resolved preload leaves the descriptor alone; a rejected one runs the
catch handler, which sets `preloadFailed = true` and logs a warning
(the rejection event), after which the promise counts as resolved. -/
def settlePlugin (p : PluginDesc) (outcome : Except String Unit) : PluginDesc × Event :=
  match outcome with
  | Except.ok _ => (p, Event.preloadResolved p.name)
  | Except.error _ => ({ p with preloadFailed := true }, Event.preloadRejected p.name)

/-- The first loop of `setupPlugins` (src/unnamed/part_002 lines 174-191).
Faithful to the source, `if (!Application._plugins[i].preload) { return; }`
returns out of `setupPlugins` itself; `Except.error launched` models that
early return, carrying the names whose preloads were already launched
before it. Otherwise every preload is launched and, once all have settled
(`Promise.all`), `Except.ok` carries the updated descriptors and the settle
events in launch order (one deterministic interleaving of the concurrent
settlements; the claims do not depend on their relative order). -/
def preloadLoop : List PluginDesc → Except (List String) (List PluginDesc × List Event)
  | [] => Except.ok ([], [])
  | p :: rest =>
    match p.preload with
    | none => Except.error []
    | some outcome =>
      let s := settlePlugin p outcome
      match preloadLoop rest with
      | Except.error launched => Except.error (p.name :: launched)
      | Except.ok (rest', evts) => Except.ok (s.1 :: rest', s.2 :: evts)

/-- The init loop (lines 201-206): `if (!plugins[i].init) return;` leaves
the whole callback, so a descriptor without an init hook stops both the
remaining inits and the entire start loop. The Bool records whether the
loop ran to completion. -/
def initLoop : List PluginDesc → List Event × Bool
  | [] => ([], true)
  | p :: rest =>
    if p.init then
      let r := initLoop rest
      (Event.initRun p.name :: r.1, r.2)
    else ([], false)

/-- The start loop (lines 209-214): `if (!plugins[i].start) return;`. -/
def startLoop : List PluginDesc → List Event
  | [] => []
  | p :: rest => if p.start then Event.startRun p.name :: startLoop rest else []

/-- The body of the `.then` after `Promise.all` (lines 194-215), run on the
already-filtered registry. -/
def runInitStart (registry : List PluginDesc) : List Event :=
  let r := initLoop registry
  if r.2 then r.1 ++ startLoop registry else r.1

/-- What `setupPlugins()` evaluates to: either the early-return `undefined`
(not a promise; the constructor immediately calls `.catch` on it), or the
promise, recorded with the registry left behind by the preload-failure
filter and the full event trace. -/
inductive SetupResult where
  | notAPromise (launched : List String)
  | promise (registry : List PluginDesc) (trace : List Event)
deriving DecidableEq, Repr

/-- `Application.setupPlugins` (lines 171-216): launch the preloads, wait
for all of them, filter out descriptors with `preloadFailed !== true`
violated, then run the init and start loops over the surviving registry. -/
def setupPlugins (plugins : List PluginDesc) : SetupResult :=
  match preloadLoop plugins with
  | Except.error launched => SetupResult.notAPromise launched
  | Except.ok (settled, preEvts) =>
    let registry := settled.filter (fun plugin => plugin.preloadFailed != true)
    SetupResult.promise registry (preEvts ++ runInitStart registry)

/-! ### Listener validation -/

/-- Modelled from the spec: `hasListeners` on a Property is true iff at
least one listener callback is attached; here it is one Bool per state
channel the validator inspects. -/
structure StateListeners where
  captionsMuted : Bool := false
  soundVolume : Bool := false
  musicVolume : Bool := false
  voVolume : Bool := false
  sfxVolume : Bool := false
  pause : Bool := false
deriving DecidableEq, Repr

/-- The loop of `validateListeners` (lines 243-255): walk
`featureToStateMap` in insertion order (captions, sound, music, vo, sfx),
collecting the state name of every enabled feature whose property has no
listeners, then check `pause` unconditionally. -/
def missingListeners (f : Features) (l : StateListeners) : List String :=
  (if f.captions && !l.captionsMuted then ["captionsMuted"] else []) ++
  ((if f.sound && !l.soundVolume then ["soundVolume"] else []) ++
  ((if f.music && !l.musicVolume then ["musicVolume"] else []) ++
  ((if f.vo && !l.voVolume then ["voVolume"] else []) ++
  ((if f.sfx && !l.sfxVolume then ["sfxVolume"] else []) ++
  (if !l.pause then ["pause"] else [])))))

/-- `Application.validateListeners` (lines 232-264): throws a single Error
joining every missing channel name when the collected list is non-empty. -/
def validateListeners (f : Features) (l : StateListeners) : Except String Unit :=
  let missingL := missingListeners f l
  if missingL.length ≠ 0 then
    Except.error ("Application state is missing required listeners: " ++
      String.intercalate ", " missingL ++ ".")
  else
    Except.ok ()

/-! ### The constructor's startup chain -/

/-- Result of the constructor's promise chain (lines 136-149). -/
structure ChainResult where
  warnings : List String
  loadedSent : Bool
  readyValue : Bool
deriving DecidableEq, Repr

/-- The chain
`setupPlugins().catch(warn).then(validateListeners).catch(warn)
 .then(send loaded; ready = true)`,
given the settled outcome of the setup promise and the outcome of
`validateListeners()`. Each `.catch` logs the error as a warning and
resolves; the final `.then` sends `loaded` and sets the `ready` property. -/
def startupChain (setupOutcome : Except String Unit)
    (validateOutcome : Except String Unit) : ChainResult :=
  let s1 : List String × Except String Unit :=
    match setupOutcome with
    | Except.ok _ => ([], Except.ok ())
    | Except.error e => ([e], Except.ok ())
  let r2 : Except String Unit :=
    match s1.2 with
    | Except.ok _ => validateOutcome
    | Except.error e => Except.error e
  let s3 : List String × Except String Unit :=
    match r2 with
    | Except.ok _ => ([], Except.ok ())
    | Except.error e => ([e], Except.ok ())
  match s3.2 with
  | Except.ok _ =>
    { warnings := s1.1 ++ s3.1, loadedSent := true, readyValue := true }
  | Except.error _ =>
    { warnings := s1.1 ++ s3.1, loadedSent := false, readyValue := false }

/-! ### Play options from the query string -/

/-- The chars `[^&$]*` accepts: everything until an ampersand or a dollar
sign (both excluded by the regex character class). -/
def takeValueChars : List Char → List Char
  | [] => []
  | c :: cs => if c = '&' || c = '$' then [] else c :: takeValueChars cs

/-- `/playOptions=[^&$]*/.exec(search)` (line 115): the first occurrence of
`playOptions=` followed by the longest run of chars other than ampersand
and dollar; `none` when the pattern does not occur. -/
def execPlayOptions : List Char → Option (List Char)
  | [] => none
  | c :: cs =>
    if List.isPrefixOf ("playOptions=".data) (c :: cs) then
      some ("playOptions=".data ++ takeValueChars (List.drop 12 (c :: cs)))
    else
      execPlayOptions cs

/-- `matchedToken.split('=')[1]` (line 118): the part of the token strictly
between its first and second equals signs. -/
def splitEqSecond (token : List Char) : List Char :=
  let afterFirst := List.drop 1 (token.dropWhile (fun c => c != '='))
  afterFirst.takeWhile (fun c => c != '=')

/-- Lines 114-128 of the constructor. `decode` stands for
`decodeURIComponent` and `jsonParse` for `JSON.parse` (returning the parse
error's message on failure), both external to this file's sources. Returns
the `playOptions` property content (`none` when it keeps its default `{}`)
and the warnings logged: a parse failure logs
`Failed to parse playOptions from query string:` plus the message and
leaves the property alone; no error escapes. -/
def processPlayOptions {α : Type} (decode : String → String)
    (jsonParse : String → Except String α) (search : String) :
    Option α × List String :=
  match execPlayOptions search.data with
  | none => (none, [])
  | some matchedToken =>
    let rawValue := decode (String.mk (splitEqSecond matchedToken))
    match jsonParse rawValue with
    | Except.ok v => (some v, [])
    | Except.error e =>
      (none, ["Failed to parse playOptions from query string:" ++ e])

/-! ### Derived notions used to state properties of the runner -/

/-- What one descriptor looks like after its preload settles and the
attached catch handler (if any) has run. -/
def settleOne (p : PluginDesc) : PluginDesc :=
  match p.preload with
  | some (Except.error _) => { p with preloadFailed := true }
  | _ => p

/-- The settle event one descriptor's preload produces. -/
def settleEvt (p : PluginDesc) : Event :=
  match p.preload with
  | some (Except.error _) => Event.preloadRejected p.name
  | _ => Event.preloadResolved p.name

/-- Whether an event is the settlement of a preload operation. -/
def eventIsSettle : Event → Bool
  | Event.preloadResolved _ => true
  | Event.preloadRejected _ => true
  | _ => false

/-- The plugin name of an init invocation, if the event is one. -/
def initName : Event → Option String
  | Event.initRun n => some n
  | _ => none

/-- The plugin name of a start invocation, if the event is one. -/
def startName : Event → Option String
  | Event.startRun n => some n
  | _ => none

/-- The warning list one stage of the startup chain contributes: its
`.catch` logs the error of a rejected stage and nothing otherwise. -/
def exceptWarnList : Except String Unit → List String
  | Except.ok _ => []
  | Except.error e => [e]

/-- A concrete descriptor exposing all three hooks, preload resolving. -/
def pluginA : PluginDesc :=
  { name := "a", preload := some (Except.ok ()), init := true, start := true }

/-- A concrete descriptor exposing all three hooks, preload resolving. -/
def pluginB : PluginDesc :=
  { name := "b", preload := some (Except.ok ()), init := true, start := true }

/-- A concrete descriptor whose preload rejects. -/
def pluginFail : PluginDesc :=
  { name := "f", preload := some (Except.error "boom"), init := true, start := true }

/-! ### Helper lemmas about the runner -/

theorem settleOne_name (p : PluginDesc) : (settleOne p).name = p.name := by
  unfold settleOne
  rcases p.preload with _ | ⟨_ | _⟩ <;> rfl

theorem settleOne_of_ok {p : PluginDesc} {u : Unit}
    (h : p.preload = some (Except.ok u)) : settleOne p = p := by
  unfold settleOne
  rw [h]

theorem settleEvt_of_ok {p : PluginDesc} {u : Unit}
    (h : p.preload = some (Except.ok u)) :
    settleEvt p = Event.preloadResolved p.name := by
  unfold settleEvt
  rw [h]

theorem settleEvt_of_error {p : PluginDesc} {e : String}
    (h : p.preload = some (Except.error e)) :
    settleEvt p = Event.preloadRejected p.name := by
  unfold settleEvt
  rw [h]

theorem eventIsSettle_settleEvt (p : PluginDesc) :
    eventIsSettle (settleEvt p) = true := by
  unfold settleEvt
  rcases p.preload with _ | ⟨_ | _⟩ <;> rfl

theorem settleEvt_cases (p : PluginDesc) :
    settleEvt p = Event.preloadResolved p.name ∨
    settleEvt p = Event.preloadRejected p.name := by
  unfold settleEvt
  rcases p.preload with _ | ⟨_ | _⟩ <;> simp

/-- When every descriptor has a preload hook, the preload loop reaches the
barrier: the descriptors are updated pointwise and one settle event is
produced per descriptor, in order. -/
theorem preloadLoop_all_some (l : List PluginDesc)
    (h : ∀ p ∈ l, (p.preload).isSome = true) :
    preloadLoop l = Except.ok (l.map settleOne, l.map settleEvt) := by
  induction l with
  | nil => rfl
  | cons p t ih =>
    have hp : (p.preload).isSome = true := h p (List.mem_cons_self p t)
    have ht := ih (fun q hq => h q (List.mem_cons_of_mem p hq))
    rcases hpre : p.preload with _ | outcome
    · rw [hpre] at hp; exact absurd hp (by simp)
    · unfold preloadLoop
      rw [hpre, ht]
      rcases outcome with u | e
      · simp [settlePlugin, settleOne, settleEvt, hpre]
      · simp [settlePlugin, settleOne, settleEvt, hpre]

/-- Conversely, if the preload loop reached the barrier then every
descriptor had a preload hook. -/
theorem preloadLoop_ok_all_some (l : List PluginDesc)
    (x : List PluginDesc × List Event)
    (h : preloadLoop l = Except.ok x) :
    ∀ p ∈ l, (p.preload).isSome = true := by
  induction l generalizing x with
  | nil => intro p hp; cases hp
  | cons q t ih =>
    intro p hp
    unfold preloadLoop at h
    rcases hq : q.preload with _ | outcome
    · rw [hq] at h; cases h
    · rw [hq] at h
      rcases ht : preloadLoop t with launched | y
      · rw [ht] at h; cases h
      · rcases List.mem_cons.mp hp with rfl | hmem
        · rw [hq]; rfl
        · exact ih y ht p hmem

/-- Descriptors whose preloads resolve pass through the loop unchanged. -/
theorem preloadLoop_ok_append (pre rest : List PluginDesc)
    (hpre : ∀ p ∈ pre, ∃ u, p.preload = some (Except.ok u))
    (rest' : List PluginDesc) (evts : List Event)
    (hrest : preloadLoop rest = Except.ok (rest', evts)) :
    preloadLoop (pre ++ rest) =
      Except.ok (pre ++ rest', pre.map settleEvt ++ evts) := by
  induction pre with
  | nil => simpa using hrest
  | cons p t ih =>
    obtain ⟨u, hp⟩ := hpre p (List.mem_cons_self p t)
    have ht := ih (fun q hq => hpre q (List.mem_cons_of_mem p hq))
    simp only [List.cons_append, preloadLoop, hp, settlePlugin, List.append_eq, ht,
      List.map_cons, settleEvt_of_ok hp]

/-- A list whose preloads all resolve passes the barrier unchanged. -/
theorem preloadLoop_all_ok (l : List PluginDesc)
    (h : ∀ p ∈ l, ∃ u, p.preload = some (Except.ok u)) :
    preloadLoop l = Except.ok (l, l.map settleEvt) := by
  have := preloadLoop_ok_append l [] h [] [] rfl
  simpa using this

theorem initLoop_eq (l : List PluginDesc) :
    initLoop l =
      ((l.takeWhile (fun p => p.init)).map (fun p => Event.initRun p.name),
       l.all (fun p => p.init)) := by
  induction l with
  | nil => rfl
  | cons p t ih =>
    by_cases hp : p.init = true
    · simp [initLoop, hp, ih, List.takeWhile_cons, List.all_cons]
    · simp [initLoop, hp, List.takeWhile_cons, List.all_cons]

theorem startLoop_eq (l : List PluginDesc) :
    startLoop l =
      (l.takeWhile (fun p => p.start)).map (fun p => Event.startRun p.name) := by
  induction l with
  | nil => rfl
  | cons p t ih =>
    by_cases hp : p.start = true
    · simp [startLoop, hp, ih, List.takeWhile_cons]
    · simp [startLoop, hp, List.takeWhile_cons]

theorem runInitStart_eq (l : List PluginDesc) :
    runInitStart l =
      (l.takeWhile (fun p => p.init)).map (fun p => Event.initRun p.name) ++
      (if l.all (fun p => p.init) then
        (l.takeWhile (fun p => p.start)).map (fun p => Event.startRun p.name)
       else []) := by
  unfold runInitStart
  rw [initLoop_eq, startLoop_eq]
  by_cases hall : l.all (fun p => p.init) = true
  · simp [hall]
  · simp [hall]

theorem takeWhile_sub {α : Type} (q : α → Bool) (l : List α) :
    List.Sublist (l.takeWhile q) l :=
  List.IsPrefix.sublist ⟨l.dropWhile q, List.takeWhile_append_dropWhile q l⟩

theorem takeWhile_subset_self {α : Type} (q : α → Bool) (l : List α) :
    ∀ a ∈ l.takeWhile q, a ∈ l :=
  fun _ ha => (takeWhile_sub q l).subset ha

/-- Every event the init/start loops emit names a descriptor of the
registry they run over. -/
theorem runInitStart_mem (l : List PluginDesc) (e : Event)
    (he : e ∈ runInitStart l) :
    ∃ p, p ∈ l ∧ (e = Event.initRun p.name ∨ e = Event.startRun p.name) := by
  rw [runInitStart_eq] at he
  rcases List.mem_append.mp he with h | h
  · obtain ⟨p, hp, rfl⟩ := List.mem_map.mp h
    exact ⟨p, takeWhile_subset_self _ l p hp, Or.inl rfl⟩
  · by_cases hall : l.all (fun p => p.init) = true
    · rw [if_pos hall] at h
      obtain ⟨p, hp, rfl⟩ := List.mem_map.mp h
      exact ⟨p, takeWhile_subset_self _ l p hp, Or.inr rfl⟩
    · rw [if_neg hall] at h
      cases h

theorem initName_settleEvt (p : PluginDesc) : initName (settleEvt p) = none := by
  rcases settleEvt_cases p with h | h <;> rw [h] <;> rfl

theorem startName_settleEvt (p : PluginDesc) : startName (settleEvt p) = none := by
  rcases settleEvt_cases p with h | h <;> rw [h] <;> rfl

theorem filterMap_initName_settle (l : List PluginDesc) :
    (l.map settleEvt).filterMap initName = [] := by
  induction l with
  | nil => rfl
  | cons p t ih => simp [List.filterMap_cons, initName_settleEvt, ih]

theorem filterMap_startName_settle (l : List PluginDesc) :
    (l.map settleEvt).filterMap startName = [] := by
  induction l with
  | nil => rfl
  | cons p t ih => simp [List.filterMap_cons, startName_settleEvt, ih]

theorem filterMap_initName_inits (l : List PluginDesc) :
    (l.map (fun p => Event.initRun p.name)).filterMap initName =
      l.map (fun p => p.name) := by
  induction l with
  | nil => rfl
  | cons p t ih => simp [List.filterMap_cons, initName, ih]

theorem filterMap_initName_starts (l : List PluginDesc) :
    (l.map (fun p => Event.startRun p.name)).filterMap initName = [] := by
  induction l with
  | nil => rfl
  | cons p t ih => simp [List.filterMap_cons, initName, ih]

theorem filterMap_startName_inits (l : List PluginDesc) :
    (l.map (fun p => Event.initRun p.name)).filterMap startName = [] := by
  induction l with
  | nil => rfl
  | cons p t ih => simp [List.filterMap_cons, startName, ih]

theorem filterMap_startName_starts (l : List PluginDesc) :
    (l.map (fun p => Event.startRun p.name)).filterMap startName =
      l.map (fun p => p.name) := by
  induction l with
  | nil => rfl
  | cons p t ih => simp [List.filterMap_cons, startName, ih]

theorem map_name_settleOne (l : List PluginDesc) :
    (l.map settleOne).map (fun p => p.name) = l.map (fun p => p.name) := by
  rw [List.map_map]
  exact List.map_congr_left (fun p _ => settleOne_name p)

/-- Registration through `uses` accumulates descriptors in call order. -/
theorem foldl_uses (regs acc : List PluginDesc) :
    List.foldl uses acc regs = acc ++ regs := by
  induction regs generalizing acc with
  | nil => simp [List.foldl]
  | cons r t ih => simp [List.foldl, uses, ih]

/-! ## The claims -/

/-- C1: the claim states that a descriptor lacking a given phase's hook is
simply skipped for that phase, with every other descriptor's hook still
invoked, and that descriptors without a preload hook count as immediately
successful without blocking the barrier. The code instead returns out of
the whole function or phase callback at the first hookless descriptor:
(1) on a registry whose first descriptor lacks a preload hook,
`setupPlugins` performs its early return (yielding undefined instead of the
documented Promise) without launching the second descriptor's preload, so
nothing further runs; (2) a registry whose first descriptor lacks an init
hook runs no init hook and no start hook at all; (3) a first descriptor
lacking only a start hook stops every remaining start hook, here the second
descriptor's, even though that descriptor exposes one. -/
theorem C1_phase_skip_bug :
    setupPlugins [{ name := "a" }, pluginB] = SetupResult.notAPromise [] ∧
    runInitStart
      [{ name := "a", preload := some (Except.ok ()), start := true }, pluginB] = [] ∧
    setupPlugins [{ name := "a", preload := some (Except.ok ()), init := true }, pluginB] =
      SetupResult.promise
        [{ name := "a", preload := some (Except.ok ()), init := true }, pluginB]
        [Event.preloadResolved "a", Event.preloadResolved "b",
         Event.initRun "a", Event.initRun "b"] := by
  decide

/-- C5: legacy mute round-trip. With a volume property holding a nonzero
value v (0.8 in the claim) and no previously recorded value, a legacy mute
event with payload true sets the property to 0, and an immediately
following mute event with payload false restores v. -/
theorem C5_legacy_mute_roundTrip (v : ℚ) (hv : v ≠ 0) :
    (legacyMuteHandler true ⟨v, none⟩).value = 0 ∧
    (legacyMuteHandler false (legacyMuteHandler true ⟨v, none⟩)).value = v := by
  refine ⟨rfl, ?_⟩
  simp [legacyMuteHandler, legacyOrOne, hv]

/-- C5 witness at the claim's concrete volume 0.8 = 4/5. -/
theorem C5_witness :
    (4 : ℚ) / 5 ≠ 0 ∧
    ((legacyMuteHandler true ⟨4/5, none⟩).value = 0 ∧
     (legacyMuteHandler false (legacyMuteHandler true ⟨4/5, none⟩)).value = 4/5) :=
  ⟨by norm_num, C5_legacy_mute_roundTrip (4/5) (by norm_num)⟩

/-- C10: double mute. Starting from a nonzero volume v with no recorded
previous value, the second consecutive mute(true) stores 0 as the previous
value, so the following mute(false) restores the default 1, not v. -/
theorem C10_double_mute (v : ℚ) (_hv : v ≠ 0) :
    (legacyMuteHandler true (legacyMuteHandler true ⟨v, none⟩)).previousValue = some 0 ∧
    (legacyMuteHandler false
      (legacyMuteHandler true (legacyMuteHandler true ⟨v, none⟩))).value = 1 := by
  refine ⟨?_, ?_⟩ <;> simp [legacyMuteHandler, legacyOrOne]

/-- C10 witness at volume 0.8 = 4/5. -/
theorem C10_witness :
    (4 : ℚ) / 5 ≠ 0 ∧
    ((legacyMuteHandler true (legacyMuteHandler true ⟨4/5, none⟩)).previousValue = some 0 ∧
     (legacyMuteHandler false
       (legacyMuteHandler true (legacyMuteHandler true ⟨4/5, none⟩))).value = 1) :=
  ⟨by norm_num, C10_double_mute (4/5) (by norm_num)⟩

/-- C6: whenever any of vo, music or sfx is true in the constructed feature
set, the effective sound flag is true, for every caller input (including
inputs that left sound unset or set it false). -/
theorem C6_sound_forced (features : Option FeaturesInput)
    (h : (constructFeatures features).vo = true ∨
         (constructFeatures features).music = true ∨
         (constructFeatures features).sfx = true) :
    (constructFeatures features).sound = true := by
  cases hvo : (assignFeatures (features.getD {})).vo <;>
    cases hm : (assignFeatures (features.getD {})).music <;>
      cases hs : (assignFeatures (features.getD {})).sfx <;>
        simp_all [constructFeatures, mkFeatures]

/-- C6 witness: features `{vo: true}` only, sound not explicitly set. -/
theorem C6_witness :
    ((constructFeatures (some { vo := some true })).vo = true ∨
     (constructFeatures (some { vo := some true })).music = true ∨
     (constructFeatures (some { vo := some true })).sfx = true) ∧
    (constructFeatures (some { vo := some true })).sound = true :=
  ⟨Or.inl (by decide), C6_sound_forced (some { vo := some true }) (Or.inl (by decide))⟩

/-- C9: for every outcome of plugin setup and of listener validation, the
constructor's startup chain ends by sending the loaded event and setting
the ready property to true, and the errors of both stages are exactly what
gets logged as warnings, in stage order. -/
theorem C9_startup_always_completes (s v : Except String Unit) :
    (startupChain s v).loadedSent = true ∧
    (startupChain s v).readyValue = true ∧
    (startupChain s v).warnings = exceptWarnList s ++ exceptWarnList v := by
  cases s <;> cases v <;> simp [startupChain, exceptWarnList]

/-- C2 counterexample: at the claim's own instance — features
`{sound: true}` and no listener on the soundVolume property (a pause
listener is attached, isolating the claimed channel) — `validateListeners`
does produce the aggregate error naming soundVolume, but startup does not
fail: the constructor chain logs the error as a warning, sends loaded and
sets ready to true. -/
theorem C2_counterexample :
    validateListeners (constructFeatures (some { sound := some true }))
        { pause := true } =
      Except.error "Application state is missing required listeners: soundVolume." ∧
    startupChain (Except.ok ())
        (validateListeners (constructFeatures (some { sound := some true }))
          { pause := true }) =
      { warnings := ["Application state is missing required listeners: soundVolume."],
        loadedSent := true, readyValue := true } := by
  decide

/-- C2 (amended): whenever the collected missing-listener set is non-empty,
`validateListeners` fails with one single aggregate error joining every
missing channel name; with sound enabled and no soundVolume listener,
soundVolume is in that set; and the startup chain catches the error,
logging it as its only warning while still sending loaded and setting
ready — the condition is not fatal to startup. -/
theorem C2_aggregate_error_caught (f : Features) (l : StateListeners)
    (h : missingListeners f l ≠ []) :
    validateListeners f l =
      Except.error ("Application state is missing required listeners: " ++
        String.intercalate ", " (missingListeners f l) ++ ".") ∧
    (f.sound = true → l.soundVolume = false →
      "soundVolume" ∈ missingListeners f l) ∧
    startupChain (Except.ok ()) (validateListeners f l) =
      { warnings := ["Application state is missing required listeners: " ++
          String.intercalate ", " (missingListeners f l) ++ "."],
        loadedSent := true, readyValue := true } := by
  have hlen : (missingListeners f l).length ≠ 0 :=
    fun hl => h (List.length_eq_zero.mp hl)
  have hval : validateListeners f l =
      Except.error ("Application state is missing required listeners: " ++
        String.intercalate ", " (missingListeners f l) ++ ".") := by
    unfold validateListeners
    rw [if_pos hlen]
  refine ⟨hval, ?_, ?_⟩
  · intro hs hl
    simp [missingListeners, hs, hl]
  · rw [hval]
    rfl

/-- C2 witness for the amended claim, at features `{sound: true}` with a
pause listener but no soundVolume listener. -/
theorem C2_witness :
    missingListeners { sound := true } { pause := true } ≠ [] ∧
    (validateListeners { sound := true } { pause := true } =
      Except.error ("Application state is missing required listeners: " ++
        String.intercalate ", "
          (missingListeners { sound := true } { pause := true }) ++ ".") ∧
    (Features.sound { sound := true } = true →
      StateListeners.soundVolume { pause := true } = false →
      "soundVolume" ∈ missingListeners { sound := true } { pause := true }) ∧
    startupChain (Except.ok ())
        (validateListeners { sound := true } { pause := true }) =
      { warnings := ["Application state is missing required listeners: " ++
          String.intercalate ", "
            (missingListeners { sound := true } { pause := true }) ++ "."],
        loadedSent := true, readyValue := true }) :=
  ⟨by decide, C2_aggregate_error_caught { sound := true } { pause := true } (by decide)⟩

/-- C7: for every query string on which the playOptions regex matches and
every decoder and JSON parser under which the decoded raw value fails to
parse, the constructor logs exactly one warning (the parse failure message)
and the playOptions property keeps its default empty mapping; the function
returns normally, raising no error. -/
theorem C7_playOptions_parse_failure {α : Type} (decode : String → String)
    (jsonParse : String → Except String α) (search : String)
    (token : List Char) (msg : String)
    (hmatch : execPlayOptions search.data = some token)
    (hbad : jsonParse (decode (String.mk (splitEqSecond token))) =
      Except.error msg) :
    processPlayOptions decode jsonParse search =
      (none, ["Failed to parse playOptions from query string:" ++ msg]) := by
  unfold processPlayOptions
  simp only [hmatch]
  simp only [hbad]

/-- C7 witness: a concrete malformed query string. -/
theorem C7_witness :
    execPlayOptions "?playOptions=notjson&x=1".data =
      some "playOptions=notjson".data ∧
    (fun _ : String => Except.error (α := Nat) "Unexpected token n")
        (id (String.mk (splitEqSecond "playOptions=notjson".data))) =
      Except.error "Unexpected token n" ∧
    processPlayOptions (α := Nat) id
        (fun _ => Except.error "Unexpected token n") "?playOptions=notjson&x=1" =
      (none, ["Failed to parse playOptions from query string:Unexpected token n"]) :=
  ⟨by decide, rfl,
    C7_playOptions_parse_failure id (fun _ => Except.error "Unexpected token n")
      "?playOptions=notjson&x=1" "playOptions=notjson".data "Unexpected token n"
      (by decide) rfl⟩

/-- C8: `getPlugin` returns some descriptor exactly when it is a match
occurring after a (possibly empty) prefix of non-matching descriptors —
the first registered descriptor with the requested name — and returns
not-found exactly when no registered descriptor has that name. -/
theorem C8_getPlugin_first_match (plugins : List PluginDesc) (name : String)
    (p : PluginDesc) :
    (getPlugin plugins name = some p ↔
      p.name = name ∧
      ∃ pre post, plugins = pre ++ p :: post ∧ ∀ q ∈ pre, q.name ≠ name) ∧
    (getPlugin plugins name = none ↔ ∀ q ∈ plugins, q.name ≠ name) := by
  constructor
  · induction plugins with
    | nil =>
      constructor
      · intro h
        exact absurd h (by simp [getPlugin])
      · rintro ⟨-, pre, post, hsplit, -⟩
        exact absurd hsplit (by cases pre <;> simp)
    | cons q t ih =>
      by_cases hq : q.name = name
      · rw [getPlugin, List.find?_cons_of_pos _ (by simp [hq])]
        constructor
        · intro h
          injection h with h
          subst h
          exact ⟨hq, [], t, rfl, by simp⟩
        · rintro ⟨hpn, pre, post, hsplit, hclean⟩
          rcases pre with _ | ⟨r, pre'⟩
          · simp only [List.nil_append, List.cons.injEq] at hsplit
            rw [hsplit.1]
          · rw [List.cons_append] at hsplit
            injection hsplit with h1 h2
            exact absurd (h1 ▸ hq) (hclean r (List.mem_cons_self r pre'))
      · rw [getPlugin, List.find?_cons_of_neg _ (by simp [hq])]
        rw [getPlugin] at ih
        rw [ih]
        constructor
        · rintro ⟨hpn, pre, post, hsplit, hclean⟩
          refine ⟨hpn, q :: pre, post, by rw [hsplit, List.cons_append], ?_⟩
          intro r hr
          rcases List.mem_cons.mp hr with rfl | hr'
          · exact hq
          · exact hclean r hr'
        · rintro ⟨hpn, pre, post, hsplit, hclean⟩
          rcases pre with _ | ⟨r, pre'⟩
          · simp only [List.nil_append, List.cons.injEq] at hsplit
            exact absurd (hsplit.1 ▸ hpn) hq
          · rw [List.cons_append] at hsplit
            injection hsplit with h1 h2
            refine ⟨hpn, pre', post, h2, ?_⟩
            intro r' hr'
            exact hclean r' (h1 ▸ List.mem_cons_of_mem r hr')
  · rw [getPlugin, List.find?_eq_none]
    constructor
    · intro h q hqmem heq
      exact h q hqmem (by simp [heq])
    · intro h q hqmem hbeq
      exact h q hqmem (by simpa using hbeq)

/-- C3: with descriptors all exposing preload hooks and exactly one
rejecting, every other preload still settles successfully (its resolved
event reaches the barrier's trace), the failing descriptor's preloadFailed
flag is set by the catch handler, the descriptor is filtered out of the
registry before the init phase, and no init or start event for it ever
occurs anywhere in the trace. -/
theorem C3_preload_failure_isolated (pre post : List PluginDesc)
    (failing : PluginDesc) (err : String)
    (hfail : failing.preload = some (Except.error err))
    (hok : ∀ p ∈ pre ++ post, ∃ u, p.preload = some (Except.ok u))
    (hflags : ∀ p ∈ pre ++ post, p.preloadFailed = false)
    (hname : failing.name ∉ (pre ++ post).map (fun p => p.name)) :
    preloadLoop (pre ++ failing :: post) =
      Except.ok (pre ++ { failing with preloadFailed := true } :: post,
        pre.map settleEvt ++
          Event.preloadRejected failing.name :: post.map settleEvt) ∧
    setupPlugins (pre ++ failing :: post) =
      SetupResult.promise (pre ++ post)
        ((pre.map settleEvt ++
            Event.preloadRejected failing.name :: post.map settleEvt) ++
          runInitStart (pre ++ post)) ∧
    (∀ p ∈ pre ++ post,
      Event.preloadResolved p.name ∈
        pre.map settleEvt ++
          Event.preloadRejected failing.name :: post.map settleEvt) ∧
    (∀ e ∈ (pre.map settleEvt ++
        Event.preloadRejected failing.name :: post.map settleEvt) ++
        runInitStart (pre ++ post),
      e ≠ Event.initRun failing.name ∧ e ≠ Event.startRun failing.name) := by
  have hpost : preloadLoop post = Except.ok (post, post.map settleEvt) :=
    preloadLoop_all_ok post (fun p hp => hok p (List.mem_append_right pre hp))
  have hmid : preloadLoop (failing :: post) =
      Except.ok ({ failing with preloadFailed := true } :: post,
        Event.preloadRejected failing.name :: post.map settleEvt) := by
    simp only [preloadLoop, hfail, settlePlugin, hpost]
  have hpl : preloadLoop (pre ++ failing :: post) =
      Except.ok (pre ++ { failing with preloadFailed := true } :: post,
        pre.map settleEvt ++
          Event.preloadRejected failing.name :: post.map settleEvt) :=
    preloadLoop_ok_append pre (failing :: post)
      (fun p hp => hok p (List.mem_append_left post hp)) _ _ hmid
  have hfilter : (pre ++ { failing with preloadFailed := true } :: post).filter
      (fun plugin => plugin.preloadFailed != true) = pre ++ post := by
    rw [List.filter_append, List.filter_cons]
    have h1 : pre.filter (fun plugin => plugin.preloadFailed != true) = pre :=
      List.filter_eq_self.mpr
        (fun p hp => by rw [hflags p (List.mem_append_left post hp)]; rfl)
    have h2 : post.filter (fun plugin => plugin.preloadFailed != true) = post :=
      List.filter_eq_self.mpr
        (fun p hp => by rw [hflags p (List.mem_append_right pre hp)]; rfl)
    rw [if_neg (by simp), h1, h2]
  have hsetup : setupPlugins (pre ++ failing :: post) =
      SetupResult.promise (pre ++ post)
        ((pre.map settleEvt ++
            Event.preloadRejected failing.name :: post.map settleEvt) ++
          runInitStart (pre ++ post)) := by
    simp only [setupPlugins, hpl]
    rw [hfilter]
  refine ⟨hpl, hsetup, ?_, ?_⟩
  · intro p hp
    rcases List.mem_append.mp hp with hin | hin
    · apply List.mem_append_left
      obtain ⟨u, hu⟩ := hok p (List.mem_append_left post hin)
      rw [← settleEvt_of_ok hu]
      exact List.mem_map_of_mem settleEvt hin
    · apply List.mem_append_right
      apply List.mem_cons_of_mem
      obtain ⟨u, hu⟩ := hok p (List.mem_append_right pre hin)
      rw [← settleEvt_of_ok hu]
      exact List.mem_map_of_mem settleEvt hin
  · intro e he
    rcases List.mem_append.mp he with hsett | hrun
    · have hs : eventIsSettle e = true := by
        rcases List.mem_append.mp hsett with h1 | h1
        · obtain ⟨p, -, rfl⟩ := List.mem_map.mp h1
          exact eventIsSettle_settleEvt p
        · rcases List.mem_cons.mp h1 with rfl | h2
          · rfl
          · obtain ⟨p, -, rfl⟩ := List.mem_map.mp h2
            exact eventIsSettle_settleEvt p
      constructor <;> intro heq <;> rw [heq] at hs <;>
        exact absurd hs (by simp [eventIsSettle])
    · obtain ⟨p, hp, hcase⟩ := runInitStart_mem (pre ++ post) e hrun
      have hpn : p.name ≠ failing.name := by
        intro hEq
        exact hname (List.mem_map.mpr ⟨p, hp, hEq⟩)
      rcases hcase with rfl | rfl
      · constructor
        · intro heq
          injection heq with hn
          exact hpn hn
        · intro heq
          exact Event.noConfusion heq
      · constructor
        · intro heq
          exact Event.noConfusion heq
        · intro heq
          injection heq with hn
          exact hpn hn

/-- C3 witness: three descriptors, the middle one's preload rejecting. -/
theorem C3_witness :
    pluginFail.preload = some (Except.error "boom") ∧
    (∀ p ∈ [pluginA] ++ [pluginB], ∃ u, p.preload = some (Except.ok u)) ∧
    (∀ p ∈ [pluginA] ++ [pluginB], p.preloadFailed = false) ∧
    pluginFail.name ∉ ([pluginA] ++ [pluginB]).map (fun p => p.name) ∧
    (preloadLoop ([pluginA] ++ pluginFail :: [pluginB]) =
      Except.ok ([pluginA] ++ { pluginFail with preloadFailed := true } :: [pluginB],
        [pluginA].map settleEvt ++
          Event.preloadRejected pluginFail.name :: [pluginB].map settleEvt) ∧
    setupPlugins ([pluginA] ++ pluginFail :: [pluginB]) =
      SetupResult.promise ([pluginA] ++ [pluginB])
        (([pluginA].map settleEvt ++
            Event.preloadRejected pluginFail.name :: [pluginB].map settleEvt) ++
          runInitStart ([pluginA] ++ [pluginB])) ∧
    (∀ p ∈ [pluginA] ++ [pluginB],
      Event.preloadResolved p.name ∈
        [pluginA].map settleEvt ++
          Event.preloadRejected pluginFail.name :: [pluginB].map settleEvt) ∧
    (∀ e ∈ ([pluginA].map settleEvt ++
        Event.preloadRejected pluginFail.name :: [pluginB].map settleEvt) ++
        runInitStart ([pluginA] ++ [pluginB]),
      e ≠ Event.initRun pluginFail.name ∧ e ≠ Event.startRun pluginFail.name)) :=
  ⟨rfl, by decide, by decide, by decide,
    C3_preload_failure_isolated [pluginA] [pluginB] pluginFail "boom"
      rfl (by decide) (by decide) (by decide)⟩

/-- C4: for every list of descriptors registered through uses, whenever
setupPlugins reaches the phase machinery (evaluates to the promise), its
trace splits into preload settlements, then init events, then start
events: every registered descriptor's launched preload settles within the
first segment, so no init or start hook runs before every preload has
settled, and the executed init events — likewise the start events — name
descriptors in registration order (their name sequence is a sublist of the
registered name sequence). -/
theorem C4_init_start_order (regs registry : List PluginDesc) (trace : List Event)
    (h : setupPlugins (List.foldl uses [] regs) =
      SetupResult.promise registry trace) :
    ∃ settleEvts initEvts startEvts,
      trace = settleEvts ++ (initEvts ++ startEvts) ∧
      (∀ e ∈ settleEvts, eventIsSettle e = true) ∧
      (∀ p ∈ regs, Event.preloadResolved p.name ∈ settleEvts ∨
        Event.preloadRejected p.name ∈ settleEvts) ∧
      (∀ e ∈ initEvts, ∃ n, e = Event.initRun n) ∧
      (∀ e ∈ startEvts, ∃ n, e = Event.startRun n) ∧
      List.Sublist (trace.filterMap initName) (regs.map (fun p => p.name)) ∧
      List.Sublist (trace.filterMap startName) (regs.map (fun p => p.name)) := by
  rw [show List.foldl uses [] regs = regs from by simpa using foldl_uses regs []] at h
  unfold setupPlugins at h
  cases hpl : preloadLoop regs with
  | error launched =>
    rw [hpl] at h
    exact absurd h (by simp)
  | ok x =>
    obtain ⟨settled, preEvts⟩ := x
    rw [hpl] at h
    have hall := preloadLoop_ok_all_some regs (settled, preEvts) hpl
    have heq := (preloadLoop_all_some regs hall).symm.trans hpl
    injection heq with hpair
    injection hpair with hsettled hpe
    injection h with hreg htr
    rw [hreg] at htr
    refine ⟨preEvts,
      (registry.takeWhile (fun p => p.init)).map (fun p => Event.initRun p.name),
      (if registry.all (fun p => p.init) then
        (registry.takeWhile (fun p => p.start)).map (fun p => Event.startRun p.name)
       else []), ?_, ?_, ?_, ?_, ?_, ?_, ?_⟩
    · rw [← htr, runInitStart_eq]
    · intro e he
      rw [← hpe] at he
      obtain ⟨p, -, rfl⟩ := List.mem_map.mp he
      exact eventIsSettle_settleEvt p
    · intro p hp
      rcases settleEvt_cases p with hc | hc
      · refine Or.inl ?_
        rw [← hpe, ← hc]
        exact List.mem_map_of_mem settleEvt hp
      · refine Or.inr ?_
        rw [← hpe, ← hc]
        exact List.mem_map_of_mem settleEvt hp
    · intro e he
      obtain ⟨p, -, rfl⟩ := List.mem_map.mp he
      exact ⟨p.name, rfl⟩
    · intro e he
      by_cases hall2 : registry.all (fun p => p.init) = true
      · rw [if_pos hall2] at he
        obtain ⟨p, -, rfl⟩ := List.mem_map.mp he
        exact ⟨p.name, rfl⟩
      · rw [if_neg hall2] at he
        cases he
    · have hreg_sub : List.Sublist (registry.map (fun p => p.name))
          (regs.map (fun p => p.name)) := by
        rw [← hreg, ← hsettled]
        have hsl := List.Sublist.map (fun p : PluginDesc => p.name)
          (List.filter_sublist (l := regs.map settleOne)
            (p := fun plugin => plugin.preloadFailed != true))
        rw [map_name_settleOne] at hsl
        exact hsl
      have hfm : trace.filterMap initName =
          (registry.takeWhile (fun p => p.init)).map (fun p => p.name) := by
        rw [← htr, runInitStart_eq, List.filterMap_append, List.filterMap_append,
          ← hpe, filterMap_initName_settle, filterMap_initName_inits]
        by_cases hall2 : registry.all (fun p => p.init) = true
        · rw [if_pos hall2, filterMap_initName_starts]
          simp
        · rw [if_neg hall2]
          simp
      rw [hfm]
      exact List.Sublist.trans
        (List.Sublist.map _ (takeWhile_sub (fun p => p.init) registry)) hreg_sub
    · have hreg_sub : List.Sublist (registry.map (fun p => p.name))
          (regs.map (fun p => p.name)) := by
        rw [← hreg, ← hsettled]
        have hsl := List.Sublist.map (fun p : PluginDesc => p.name)
          (List.filter_sublist (l := regs.map settleOne)
            (p := fun plugin => plugin.preloadFailed != true))
        rw [map_name_settleOne] at hsl
        exact hsl
      by_cases hall2 : registry.all (fun p => p.init) = true
      · have hfm : trace.filterMap startName =
            (registry.takeWhile (fun p => p.start)).map (fun p => p.name) := by
          rw [← htr, runInitStart_eq, List.filterMap_append, List.filterMap_append,
            ← hpe, filterMap_startName_settle, filterMap_startName_inits,
            if_pos hall2, filterMap_startName_starts]
          simp
        rw [hfm]
        exact List.Sublist.trans
          (List.Sublist.map _ (takeWhile_sub (fun p => p.start) registry)) hreg_sub
      · have hfm : trace.filterMap startName = [] := by
          rw [← htr, runInitStart_eq, List.filterMap_append, List.filterMap_append,
            ← hpe, filterMap_startName_settle, filterMap_startName_inits,
            if_neg hall2]
          simp
        rw [hfm]
        exact List.nil_sublist _

/-- C4 witness: two descriptors registered through uses, both preloads
resolving, both init and start hooks present. -/
theorem C4_witness :
    setupPlugins (List.foldl uses [] [pluginA, pluginB]) =
      SetupResult.promise [pluginA, pluginB]
        [Event.preloadResolved "a", Event.preloadResolved "b",
         Event.initRun "a", Event.initRun "b",
         Event.startRun "a", Event.startRun "b"] ∧
    (∃ settleEvts initEvts startEvts,
      [Event.preloadResolved "a", Event.preloadResolved "b",
       Event.initRun "a", Event.initRun "b",
       Event.startRun "a", Event.startRun "b"] =
        settleEvts ++ (initEvts ++ startEvts) ∧
      (∀ e ∈ settleEvts, eventIsSettle e = true) ∧
      (∀ p ∈ [pluginA, pluginB], Event.preloadResolved p.name ∈ settleEvts ∨
        Event.preloadRejected p.name ∈ settleEvts) ∧
      (∀ e ∈ initEvts, ∃ n, e = Event.initRun n) ∧
      (∀ e ∈ startEvts, ∃ n, e = Event.startRun n) ∧
      List.Sublist
        (List.filterMap initName
          [Event.preloadResolved "a", Event.preloadResolved "b",
           Event.initRun "a", Event.initRun "b",
           Event.startRun "a", Event.startRun "b"])
        ([pluginA, pluginB].map (fun p => p.name)) ∧
      List.Sublist
        (List.filterMap startName
          [Event.preloadResolved "a", Event.preloadResolved "b",
           Event.initRun "a", Event.initRun "b",
           Event.startRun "a", Event.startRun "b"])
        ([pluginA, pluginB].map (fun p => p.name))) :=
  ⟨by decide,
    C4_init_start_order [pluginA, pluginB] [pluginA, pluginB]
      [Event.preloadResolved "a", Event.preloadResolved "b",
       Event.initRun "a", Event.initRun "b",
       Event.startRun "a", Event.startRun "b"] (by decide)⟩

end SpringRoll
